import Mathlib

/-!
Shallow embedding of the PConverter image-editor core (TypeScript sources
`src/services/imageUtils.ts`, `src/components/CanvasEditor.tsx`,
`src/components/SettingsPanel.tsx`, shared types in `src/types.ts`).

Conventions of the embedding:
* JavaScript floating-point arithmetic is modelled over `ℚ` (exact real
  arithmetic on the expressions the code writes down).
* `canvas.toBlob` is an external codec; a canvas is modelled by the two
  encode oracles the code can invoke on it: one parameterless encode
  (the PNG call path, no quality argument) and one quality-indexed
  encode.  Either may fail (`Option`), matching `Blob | null`.
* JS truthiness tests on optional numbers (`settings.targetWidth || …`)
  are modelled on `Option ℚ` with `none` and `some 0` falsy.
-/

namespace PConverter

/-- An encoded blob, abstracted to its byte size (the only field the
compression logic inspects is `blob.size`). -/
structure Blob where
  size : Nat
deriving DecidableEq

/-- `ImageFormat` enum from `src/types.ts`. -/
inductive ImageFormat
  | JPEG
  | PNG
  | WEBP
deriving DecidableEq

/-- A canvas, seen through the encode calls `compressToTargetSize` can
make on it: `toBlobNoQ` models `canvas.toBlob(cb, format)` (no quality
argument, the PNG path) and `toBlobQ q` models
`canvas.toBlob(cb, format, q)`. -/
structure Canvas where
  toBlobNoQ : Option Blob
  toBlobQ : ℚ → Option Blob

/-- The bisection loop of `compressToTargetSize`
(`src/services/imageUtils.ts` lines 47-60): `while (iteration < 6)`,
encode at `midQ = (minQ + maxQ) / 2`, break on a null blob, shrink
`maxQ` when the blob is too big, otherwise raise `minQ` and remember
the blob as best valid result.  Returns the final `(minQ, maxQ,
resultBlob)`. -/
def compressLoop (enc : ℚ → Option Blob) (targetSizeBytes : ℕ) :
    ℕ → ℚ → ℚ → Option Blob → ℚ × ℚ × Option Blob
  | 0, minQ, maxQ, res => (minQ, maxQ, res)
  | fuel + 1, minQ, maxQ, res =>
    let midQ := (minQ + maxQ) / 2
    match enc midQ with
    | none => (minQ, maxQ, res)
    | some blob =>
      if targetSizeBytes < blob.size then
        compressLoop enc targetSizeBytes fuel minQ midQ res
      else
        compressLoop enc targetSizeBytes fuel midQ maxQ (some blob)

/-- `compressToTargetSize` (`src/services/imageUtils.ts` lines 25-68).
PNG: one quality-less encode, returned as is.  Lossy formats: probe at
quality `1.0`, return it if within budget, otherwise run the bisection
loop seeded with the probe blob as `resultBlob`; afterwards, only if
`resultBlob` is still null (`if (!resultBlob)`), encode once more at
the final `minQ`. -/
def compressToTargetSize (canvas : Canvas) (format : ImageFormat)
    (targetSizeBytes : ℕ) : Option Blob :=
  if format = ImageFormat.PNG then
    canvas.toBlobNoQ
  else
    let afterProbe : Option Blob → Option Blob := fun res0 =>
      let out := compressLoop canvas.toBlobQ targetSizeBytes 6 (1/100) 1 res0
      match out.2.2 with
      | some r => some r
      | none => canvas.toBlobQ out.1
    match canvas.toBlobQ 1 with
    | some b => if b.size ≤ targetSizeBytes then some b else afterProbe (some b)
    | none => afterProbe none

/-- Crop rectangle `{x, y, width, height}` in original image-space
pixel coordinates (`CropRect` in `src/types.ts`). -/
structure CropRect where
  x : ℚ
  y : ℚ
  width : ℚ
  height : ℚ
deriving DecidableEq

/-- The pixel dimensions of the active image (`image.width`,
`image.height` of `ImageFile`). -/
structure ImageDims where
  width : ℚ
  height : ℚ
deriving DecidableEq

/-- `const minSize = 20` in `handleMouseMove`
(`src/components/CanvasEditor.tsx` line 242): minimum crop size in
image coordinates. -/
def minCropSize : ℚ := 20

/-- The drag handles of the crop overlay (`dragState.handle`). -/
inductive Handle
  | body
  | nw
  | ne
  | se
  | sw
  | n
  | s
  | e
  | w
deriving DecidableEq

/-- One crop-resolver step: the `switch (dragState.handle)` of
`handleMouseMove` (`src/components/CanvasEditor.tsx` lines 241-347),
applied to the rectangle `r` at drag start with the image-space delta
`(deltaImgX, deltaImgY)`; `locked` is `editState.cropAspectLocked`.
The aspect value `r.width / r.height` is the code's `aspectRatio`
local, computed from the drag-start rectangle. -/
def resolveDrag (img : ImageDims) (locked : Bool) (handle : Handle)
    (deltaImgX deltaImgY : ℚ) (r : CropRect) : CropRect :=
  match handle with
  | .body =>
    { r with
      x := max 0 (min (img.width - r.width) (r.x + deltaImgX)),
      y := max 0 (min (img.height - r.height) (r.y + deltaImgY)) }
  | .nw =>
    if locked then
      let newWidth := max minCropSize (min (r.x + r.width) (r.width - deltaImgX))
      let newHeight := newWidth / (r.width / r.height)
      let newX := r.x + r.width - newWidth
      let newY := r.y + r.height - newHeight
      if 0 ≤ newX ∧ 0 ≤ newY ∧ minCropSize ≤ newHeight then
        ⟨newX, newY, newWidth, newHeight⟩
      else r
    else
      let newX := min (r.x + r.width - minCropSize) (max 0 (r.x + deltaImgX))
      let newY := min (r.y + r.height - minCropSize) (max 0 (r.y + deltaImgY))
      ⟨newX, newY, r.width + (r.x - newX), r.height + (r.y - newY)⟩
  | .ne =>
    if locked then
      let newWidth := max minCropSize (min (img.width - r.x) (r.width + deltaImgX))
      let newHeight := newWidth / (r.width / r.height)
      let newY := r.y + r.height - newHeight
      if 0 ≤ newY ∧ minCropSize ≤ newHeight then
        ⟨r.x, newY, newWidth, newHeight⟩
      else r
    else
      let newY := min (r.y + r.height - minCropSize) (max 0 (r.y + deltaImgY))
      ⟨r.x, newY, max minCropSize (min (img.width - r.x) (r.width + deltaImgX)),
        r.height + (r.y - newY)⟩
  | .se =>
    if locked then
      let newWidth := max minCropSize (min (img.width - r.x) (r.width + deltaImgX))
      let newHeight := newWidth / (r.width / r.height)
      if r.y + newHeight ≤ img.height ∧ minCropSize ≤ newHeight then
        ⟨r.x, r.y, newWidth, newHeight⟩
      else r
    else
      ⟨r.x, r.y, max minCropSize (min (img.width - r.x) (r.width + deltaImgX)),
        max minCropSize (min (img.height - r.y) (r.height + deltaImgY))⟩
  | .sw =>
    if locked then
      let newWidth := max minCropSize (min (r.x + r.width) (r.width - deltaImgX))
      let newHeight := newWidth / (r.width / r.height)
      let newX := r.x + r.width - newWidth
      if 0 ≤ newX ∧ r.y + newHeight ≤ img.height ∧ minCropSize ≤ newHeight then
        ⟨newX, r.y, newWidth, newHeight⟩
      else r
    else
      let newX := min (r.x + r.width - minCropSize) (max 0 (r.x + deltaImgX))
      ⟨newX, r.y, r.width + (r.x - newX),
        max minCropSize (min (img.height - r.y) (r.height + deltaImgY))⟩
  | .n =>
    let newY := min (r.y + r.height - minCropSize) (max 0 (r.y + deltaImgY))
    ⟨r.x, newY, r.width, r.height + (r.y - newY)⟩
  | .s =>
    { r with height := max minCropSize (min (img.height - r.y) (r.height + deltaImgY)) }
  | .w =>
    let newX := min (r.x + r.width - minCropSize) (max 0 (r.x + deltaImgX))
    ⟨newX, r.y, r.width + (r.x - newX), r.height⟩
  | .e =>
    { r with width := max minCropSize (min (img.width - r.x) (r.width + deltaImgX)) }

/-- The crop-rectangle invariant of the spec (§3): inside the image
bounds and at least `minCropSize` on both axes. -/
def cropInvariant (img : ImageDims) (r : CropRect) : Prop :=
  0 ≤ r.x ∧ 0 ≤ r.y ∧ r.x + r.width ≤ img.width ∧
    r.y + r.height ≤ img.height ∧ minCropSize ≤ r.width ∧ minCropSize ≤ r.height

instance (img : ImageDims) (r : CropRect) : Decidable (cropInvariant img r) := by
  unfold cropInvariant
  infer_instance

/-- One recorded resolver operation: lock state, dragged handle and
the image-space pointer delta of a pointer-move tick. -/
structure DragOp where
  locked : Bool
  handle : Handle
  deltaImgX : ℚ
  deltaImgY : ℚ

/-- A sequence of resolver operations applied in order, each starting
from the rectangle the previous one produced. -/
def applyDragOps (img : ImageDims) (ops : List DragOp) (r : CropRect) : CropRect :=
  ops.foldl (fun acc op => resolveDrag img op.locked op.handle op.deltaImgX op.deltaImgY acc) r

/-- The width candidate computed by the aspect-locked corner branches
of `handleMouseMove`: width-driven for all four corners, clamped so the
anchored horizontal side cannot leave the image (`r.x + r.width` of
available room for `nw`/`sw`, `image.width - r.x` for `ne`/`se`) nor
drop below `minSize`. -/
def lockedNewWidth (img : ImageDims) (handle : Handle) (deltaImgX : ℚ)
    (r : CropRect) : ℚ :=
  match handle with
  | .nw | .sw => max minCropSize (min (r.x + r.width) (r.width - deltaImgX))
  | .ne | .se => max minCropSize (min (img.width - r.x) (r.width + deltaImgX))
  | _ => r.width

/-- The rectangle an aspect-locked corner drag derives before its
bounds check: height is `newWidth / aspectRatio` with the aspect taken
from the drag-start rectangle, and the origin is recomputed from the
anchor corner opposite the dragged one. -/
def lockedDerivedRect (img : ImageDims) (handle : Handle) (deltaImgX : ℚ)
    (r : CropRect) : CropRect :=
  let newWidth := lockedNewWidth img handle deltaImgX r
  let newHeight := newWidth / (r.width / r.height)
  match handle with
  | .nw => ⟨r.x + r.width - newWidth, r.y + r.height - newHeight, newWidth, newHeight⟩
  | .ne => ⟨r.x, r.y + r.height - newHeight, newWidth, newHeight⟩
  | .se => ⟨r.x, r.y, newWidth, newHeight⟩
  | .sw => ⟨r.x + r.width - newWidth, r.y, newWidth, newHeight⟩
  | _ => r

/-- Geometry kernel of `handleMouseMove`
(`src/components/CanvasEditor.tsx` lines 223-239): map a screen-space
pointer delta to image space.  `cosR`/`sinR` stand for
`Math.cos(rad)`/`Math.sin(rad)` at `rad = -rotation·π/180` (the trig
of the inverse rotation, abstracted because `π` is transcendental).
Note the code divides by `(viewState.fitScale || 1) * userScale`: a
zero `fitScale` falls back to `1`. -/
def screenToImageDelta (cosR sinR : ℚ) (flipX flipY : Bool)
    (fitScale userScale dx dy : ℚ) : ℚ × ℚ :=
  let rotDx := dx * cosR - dy * sinR
  let rotDy := dx * sinR + dy * cosR
  let flippedDx := if flipX then -rotDx else rotDx
  let flippedDy := if flipY then -rotDy else rotDy
  let currentScale := (if fitScale = 0 then 1 else fitScale) * userScale
  (flippedDx / currentScale, flippedDy / currentScale)

/-- The geometry-kernel mapping as the spec words it (§4.1): rotate the
screen delta by `−rotationDeg`, negate each axis on its flip flag, then
divide both components by `fitScale × userScale`. -/
def screenToImageDeltaSpec (cosR sinR : ℚ) (flipX flipY : Bool)
    (fitScale userScale dx dy : ℚ) : ℚ × ℚ :=
  let rotDx := dx * cosR - dy * sinR
  let rotDy := dx * sinR + dy * cosR
  let flippedDx := if flipX then -rotDx else rotDx
  let flippedDy := if flipY then -rotDy else rotDy
  (flippedDx / (fitScale * userScale), flippedDy / (fitScale * userScale))

/-- `WatermarkSettings` from `src/types.ts`. -/
structure WatermarkSettings where
  enabled : Bool
  text : String
  color : String
  opacity : ℚ
  fontSize : ℚ
  rotation : ℚ
  spacingX : ℚ
  spacingY : ℚ
deriving DecidableEq

/-- `ExportSettings` from `src/types.ts`.  Optional numbers are
`Option ℚ` (`none` = `undefined`); `maintainAspect` is the source's
`maintainAspectRatio` flag. -/
structure ExportSettings where
  format : ImageFormat
  quality : ℚ
  targetSizeMB : Option ℚ
  targetWidth : Option ℚ
  targetHeight : Option ℚ
  maintainAspect : Bool
  watermark : WatermarkSettings
deriving DecidableEq

/-- JS truthiness of an optional number: `undefined` and `0` are
falsy. -/
def qTruthy : Option ℚ → Bool
  | none => false
  | some v => if v = 0 then false else true

/-- `a || b` on an optional number `a` with fallback `b`. -/
def qOr (a : Option ℚ) (b : ℚ) : ℚ :=
  match a with
  | none => b
  | some v => if v = 0 then b else v

/-- `EditState` from `src/types.ts`. -/
structure EditState where
  scale : ℚ
  rotation : ℚ
  flipX : Bool
  flipY : Bool
  isCropping : Bool
  cropRect : Option CropRect
  cropAspectLocked : Bool
deriving DecidableEq

/-- The geometric outcome of `processImage`: the source window chosen
in step 1, the working-canvas size of step 3, and the final canvas size
after the optional resize stage of step 5 (the watermark stage reuses
the final size unchanged: `watermarkCanvas.width = finalCanvas.width`). -/
structure RenderSpec where
  src : CropRect
  renderW : ℚ
  renderH : ℚ
  finalW : ℚ
  finalH : ℚ
deriving DecidableEq

/-- The geometry of `processImage` (`src/services/imageUtils.ts` lines
82-154): source windowing (`if (editState.cropRect &&
editState.isCropping)`), rotated bounding box from `|cos|`/`|sin|`,
working canvas scaled by `editState.scale`, and the optional resize
stage with `targetWidth || canvas.width` fallbacks and
aspect-derivation of a missing dimension.  `trig` abstracts
`(Math.cos(rads), Math.sin(rads))` as a function of
`editState.rotation` (degrees). -/
def processImageGeometry (trig : ℚ → ℚ × ℚ) (img : ImageDims)
    (editState : EditState) (settings : ExportSettings) : RenderSpec :=
  let src : CropRect :=
    match editState.cropRect with
    | some rect => if editState.isCropping then rect else ⟨0, 0, img.width, img.height⟩
    | none => ⟨0, 0, img.width, img.height⟩
  let absCos := |(trig editState.rotation).1|
  let absSin := |(trig editState.rotation).2|
  let rotatedW := src.width * absCos + src.height * absSin
  let rotatedH := src.width * absSin + src.height * absCos
  let renderW := rotatedW * editState.scale
  let renderH := rotatedH * editState.scale
  if qTruthy settings.targetWidth || qTruthy settings.targetHeight then
    let targetW := qOr settings.targetWidth renderW
    let targetH := qOr settings.targetHeight renderH
    let whRatio := renderW / renderH
    let targetH2 :=
      if qTruthy settings.targetWidth && !qTruthy settings.targetHeight &&
          settings.maintainAspect then
        ((round (targetW / whRatio) : ℤ) : ℚ)
      else targetH
    let targetW2 :=
      if !qTruthy settings.targetWidth && qTruthy settings.targetHeight &&
          settings.maintainAspect then
        ((round (targetH * whRatio) : ℤ) : ℚ)
      else targetW
    ⟨src, renderW, renderH, targetW2, targetH2⟩
  else
    ⟨src, renderW, renderH, renderW, renderH⟩

/-- Source windowing as the spec words it (§4.3 step 1): if
`isCropping` is true and a crop rectangle exists, the source rectangle
is `cropRect`; otherwise the full image extent. -/
def srcRectSpec (img : ImageDims) (editState : EditState) : CropRect :=
  if editState.isCropping ∧ editState.cropRect.isSome then
    editState.cropRect.getD ⟨0, 0, img.width, img.height⟩
  else ⟨0, 0, img.width, img.height⟩

/-- The part of a `RenderSpec` that reaches the exported file: the
chosen source window and the final canvas dimensions handed to the
encoder. -/
def exportFootprint (rs : RenderSpec) : CropRect × ℚ × ℚ :=
  (rs.src, rs.finalW, rs.finalH)

/-- Watermark tile rows (`src/services/imageUtils.ts` line 188):
`Math.ceil(finalCanvas.height / autoSpacingY) + 2`. -/
def watermarkRows (height spacingY : ℚ) : ℤ :=
  ⌈height / spacingY⌉ + 2

/-- Watermark tile columns (`src/services/imageUtils.ts` line 189):
`Math.ceil(finalCanvas.width / autoSpacingX) + 2`. -/
def watermarkCols (width spacingX : ℚ) : ℤ :=
  ⌈width / spacingX⌉ + 2

/-- The manual target-size text input outcome after JS parsing:
empty string, unparseable (`parseFloat` gave `NaN`), or a parsed
number. -/
inductive SizeInput
  | empty
  | nan
  | num (value : ℚ)

/-- `handleManualSizeInput` (`src/components/SettingsPanel.tsx` lines
94-103): empty input clears `targetSizeMB`; a parsed number is stored
only when it lies in `[0.1, maxLimitMB]`; anything else leaves the
settings untouched. -/
def handleManualSizeInput (maxLimitMB : ℚ) (settings : ExportSettings)
    (input : SizeInput) : ExportSettings :=
  match input with
  | .empty => { settings with targetSizeMB := none }
  | .nan => settings
  | .num value =>
    if 1/10 ≤ value ∧ value ≤ maxLimitMB then
      { settings with targetSizeMB := some value }
    else settings

/-- A concrete watermark configuration used by witnesses. -/
def sampleWatermark : WatermarkSettings :=
  ⟨false, "", "#ffffff", 1/2, 16, 0, 200, 150⟩

/-- A concrete `ExportSettings` with no target dimensions set. -/
def sampleSettingsNoTargets : ExportSettings :=
  ⟨ImageFormat.PNG, 92/100, none, none, none, true, sampleWatermark⟩

/-- A concrete `ExportSettings` with both target dimensions set. -/
def sampleSettingsBothTargets : ExportSettings :=
  ⟨ImageFormat.JPEG, 92/100, none, some 50, some 40, false, sampleWatermark⟩

/-- An `EditState` with a given zoom factor and all other fields fixed:
two instances differ only in `scale`. -/
def scaledEditState (scaleVal : ℚ) : EditState :=
  ⟨scaleVal, 0, false, false, false, none, false⟩

/-- Counterexample encoder for the fallback claim: every quality below
`1` encodes to 60 bytes, quality `1` to 100 bytes, so no encode ever
meets a 50-byte target and the smallest achievable blob is 60 bytes. -/
def fallbackCexCanvas : Canvas where
  toBlobNoQ := none
  toBlobQ := fun q => some ⟨if 1 ≤ q then 100 else 60⟩

/-- Counterexample encoder for the feasibility claim: sizes are monotone
nondecreasing in quality (10 bytes for `q ≤ 1/50`, 100 bytes above), so
quality `1/100` meets a 50-byte target, but none of the six bisection
midpoints (the smallest is `1631/64000 > 1/50`) ever goes that low. -/
def feasibleCexCanvas : Canvas where
  toBlobNoQ := none
  toBlobQ := fun q => some ⟨if q ≤ 1/50 then 10 else 100⟩

end PConverter

/-- C1: the claim states that when neither the quality-1.0 probe nor any
bisection encode meets the byte target, the encoder performs one final
encode at the lowest bound `lo` and returns that smallest blob.  On the
code this fails: `resultBlob` is pre-seeded with the probe blob, so the
`if (!resultBlob)` fallback never fires and the oversized quality-1.0
probe (the largest blob) is returned instead.  Here every encode
exceeds the 50-byte target, the encode at `lo = 1/100` would give 60
bytes, yet the function returns the 100-byte probe. -/
theorem compressToTargetSize_fallback_returns_probe :
    PConverter.compressToTargetSize PConverter.fallbackCexCanvas
      PConverter.ImageFormat.JPEG 50 = some ⟨100⟩ ∧
    PConverter.fallbackCexCanvas.toBlobQ (1/100) = some ⟨60⟩ ∧
    (50 : ℕ) < 100 := by
  refine ⟨?_, ?_, by decide⟩ <;>
    norm_num [PConverter.compressToTargetSize, PConverter.compressLoop,
      PConverter.fallbackCexCanvas] <;> decide

/-- C4: the claim states that (under monotone size-in-quality) whenever
some quality in `[1/100, 1]` encodes within the byte target, the
returned blob meets the target.  On the code this fails: with the
monotone encoder `feasibleCexCanvas`, quality `1/100` gives 10 bytes
(≤ 50), but all six bisection midpoints stay above `1/50` and encode to
100 bytes, and the missing final encode at `lo` (see C1) means the
100-byte probe is returned, exceeding the target. -/
theorem compressToTargetSize_feasible_target_missed :
    PConverter.compressToTargetSize PConverter.feasibleCexCanvas
      PConverter.ImageFormat.JPEG 50 = some ⟨100⟩ ∧
    PConverter.feasibleCexCanvas.toBlobQ (1/100) = some ⟨10⟩ ∧
    (50 : ℕ) < 100 := by
  refine ⟨?_, ?_, by decide⟩ <;>
    norm_num [PConverter.compressToTargetSize, PConverter.compressLoop,
      PConverter.feasibleCexCanvas] <;> decide

/-- C7: a PNG encode performs the single quality-less `canvas.toBlob`
call and returns its result unchanged, for every canvas (hence for
every quality-indexed encoder) and every byte target: neither
`targetSizeBytes` nor the quality search influences the PNG path. -/
theorem compressToTargetSize_png_single_encode
    (canvas : PConverter.Canvas) (targetSizeBytes : ℕ) :
    PConverter.compressToTargetSize canvas PConverter.ImageFormat.PNG
      targetSizeBytes = canvas.toBlobNoQ := by
  rfl

open PConverter

theorem clampUp_le {a b : ℚ} (c : ℚ) (h : a ≤ b) : max a (min b c) ≤ b :=
  max_le h (min_le_left _ _)

theorem clampDown_nonneg {a : ℚ} (c : ℚ) (h : 0 ≤ a) : 0 ≤ min a (max 0 c) :=
  le_min h (le_max_left _ _)

theorem cropInvariant_mk (img : ImageDims) {a b c d : ℚ} (h1 : 0 ≤ a)
    (h2 : 0 ≤ b) (h3 : a + c ≤ img.width) (h4 : b + d ≤ img.height)
    (h5 : minCropSize ≤ c) (h6 : minCropSize ≤ d) :
    cropInvariant img ⟨a, b, c, d⟩ :=
  ⟨h1, h2, h3, h4, h5, h6⟩

/-- Every single crop-resolver step preserves the crop-rectangle
invariant, for every handle, lock state and image-space delta. -/
theorem resolveDrag_invariant (img : ImageDims) (locked : Bool)
    (handle : Handle) (dx dy : ℚ) (r : CropRect)
    (hr : cropInvariant img r) :
    cropInvariant img (resolveDrag img locked handle dx dy r) := by
  obtain ⟨rx, ry, rw, rh⟩ := r
  obtain ⟨hx, hy, hxw, hyh, hw, hh⟩ := hr
  cases handle
  case body =>
    simp only [resolveDrag]
    exact cropInvariant_mk img (le_max_left _ _) (le_max_left _ _)
      (by have := clampUp_le (a := (0:ℚ)) (rx + dx) (b := img.width - rw)
            (by linarith)
          linarith)
      (by have := clampUp_le (a := (0:ℚ)) (ry + dy) (b := img.height - rh)
            (by linarith)
          linarith)
      hw hh
  case nw =>
    simp only [resolveDrag]
    split_ifs with hl hg
    · obtain ⟨hg1, hg2, hg3⟩ := hg
      exact cropInvariant_mk img hg1 hg2 (by linarith) (by linarith)
        (le_max_left _ _) hg3
    · exact ⟨hx, hy, hxw, hyh, hw, hh⟩
    · refine cropInvariant_mk img (clampDown_nonneg _ (by linarith))
        (clampDown_nonneg _ (by linarith)) (by linarith) (by linarith) ?_ ?_
      · have := min_le_left (rx + rw - minCropSize) (max 0 (rx + dx))
        linarith
      · have := min_le_left (ry + rh - minCropSize) (max 0 (ry + dy))
        linarith
  case ne =>
    simp only [resolveDrag]
    split_ifs with hl hg
    · obtain ⟨hg1, hg2⟩ := hg
      exact cropInvariant_mk img hx hg1
        (by have := clampUp_le (rw + dx) (a := minCropSize)
              (b := img.width - rx) (by linarith)
            linarith)
        (by linarith) (le_max_left _ _) hg2
    · exact ⟨hx, hy, hxw, hyh, hw, hh⟩
    · refine cropInvariant_mk img hx (clampDown_nonneg _ (by linarith))
        (by have := clampUp_le (rw + dx) (a := minCropSize)
              (b := img.width - rx) (by linarith)
            linarith)
        (by linarith) (le_max_left _ _) ?_
      have := min_le_left (ry + rh - minCropSize) (max 0 (ry + dy))
      linarith
  case se =>
    simp only [resolveDrag]
    split_ifs with hl hg
    · obtain ⟨hg1, hg2⟩ := hg
      exact cropInvariant_mk img hx hy
        (by have := clampUp_le (rw + dx) (a := minCropSize)
              (b := img.width - rx) (by linarith)
            linarith)
        (by linarith) (le_max_left _ _) hg2
    · exact ⟨hx, hy, hxw, hyh, hw, hh⟩
    · exact cropInvariant_mk img hx hy
        (by have := clampUp_le (rw + dx) (a := minCropSize)
              (b := img.width - rx) (by linarith)
            linarith)
        (by have := clampUp_le (rh + dy) (a := minCropSize)
              (b := img.height - ry) (by linarith)
            linarith)
        (le_max_left _ _) (le_max_left _ _)
  case sw =>
    simp only [resolveDrag]
    split_ifs with hl hg
    · obtain ⟨hg1, hg2, hg3⟩ := hg
      exact cropInvariant_mk img hg1 hy (by linarith) (by linarith)
        (le_max_left _ _) hg3
    · exact ⟨hx, hy, hxw, hyh, hw, hh⟩
    · refine cropInvariant_mk img (clampDown_nonneg _ (by linarith)) hy
        (by linarith)
        (by have := clampUp_le (rh + dy) (a := minCropSize)
              (b := img.height - ry) (by linarith)
            linarith)
        ?_ (le_max_left _ _)
      have := min_le_left (rx + rw - minCropSize) (max 0 (rx + dx))
      linarith
  case n =>
    simp only [resolveDrag]
    refine cropInvariant_mk img hx (clampDown_nonneg _ (by linarith))
      (by linarith) (by linarith) hw ?_
    have := min_le_left (ry + rh - minCropSize) (max 0 (ry + dy))
    linarith
  case s =>
    simp only [resolveDrag]
    exact cropInvariant_mk img hx hy (by linarith)
      (by have := clampUp_le (rh + dy) (a := minCropSize)
            (b := img.height - ry) (by linarith)
          linarith)
      hw (le_max_left _ _)
  case w =>
    simp only [resolveDrag]
    refine cropInvariant_mk img (clampDown_nonneg _ (by linarith)) hy
      (by linarith) (by linarith) ?_ hh
    have := min_le_left (rx + rw - minCropSize) (max 0 (rx + dx))
    linarith
  case e =>
    simp only [resolveDrag]
    exact cropInvariant_mk img hx hy
      (by have := clampUp_le (rw + dx) (a := minCropSize)
            (b := img.width - rx) (by linarith)
          linarith)
      (by linarith) (le_max_left _ _) hh

/-- C3: starting from any crop rectangle satisfying the bounds-and-size
invariant, every sequence of crop-resolver operations — any drag handle
(`body`, `n`, `s`, `e`, `w`, `nw`, `ne`, `sw`, `se`), any lock state
and any image-space pointer delta at each step — yields a rectangle
that still satisfies `0 ≤ x`, `0 ≤ y`, `x+width ≤ imageWidth`,
`y+height ≤ imageHeight`, `width ≥ 20` and `height ≥ 20`; in
particular one resolver step preserves the invariant. -/
theorem cropRect_invariant_preserved (img : ImageDims) (ops : List DragOp)
    (r : CropRect) (hr : cropInvariant img r) :
    cropInvariant img (applyDragOps img ops r) := by
  induction ops generalizing r with
  | nil => exact hr
  | cons op rest ih =>
    exact ih (resolveDrag img op.locked op.handle op.deltaImgX op.deltaImgY r)
      (resolveDrag_invariant img op.locked op.handle op.deltaImgX op.deltaImgY r hr)

theorem cropRect_invariant_preserved_witness :
    cropInvariant ⟨100, 100⟩ ⟨10, 10, 40, 30⟩ ∧
    cropInvariant ⟨100, 100⟩ (applyDragOps ⟨100, 100⟩
      [⟨false, Handle.se, 25, 900⟩, ⟨true, Handle.nw, -7, 3⟩] ⟨10, 10, 40, 30⟩) :=
  ⟨by norm_num [cropInvariant, minCropSize],
   cropRect_invariant_preserved ⟨100, 100⟩
     [⟨false, Handle.se, 25, 900⟩, ⟨true, Handle.nw, -7, 3⟩] ⟨10, 10, 40, 30⟩
     (by norm_num [cropInvariant, minCropSize])⟩

/-- C5: on every view transform with a nonzero fit scale (the only fit
scales the view ever stores: the updater guards `fitScale > 0 ? fitScale
: 1`), the geometry kernel of `handleMouseMove` maps a screen delta to
image space exactly as the spec states: rotate by `−rotationDeg` (via
the abstracted `cosR`/`sinR` of that inverse angle), negate x iff
`flipX` and y iff `flipY`, then divide both components by
`fitScale × userScale`. -/
theorem screenToImageDelta_matches_spec (cosR sinR : ℚ) (flipX flipY : Bool)
    (fitScale userScale dx dy : ℚ) (hfit : fitScale ≠ 0) :
    screenToImageDelta cosR sinR flipX flipY fitScale userScale dx dy =
      screenToImageDeltaSpec cosR sinR flipX flipY fitScale userScale dx dy := by
  simp only [screenToImageDelta, screenToImageDeltaSpec, if_neg hfit]

theorem screenToImageDelta_matches_spec_witness :
    (2 : ℚ) ≠ 0 ∧
    screenToImageDelta 1 0 false true 2 1 10 4 =
      screenToImageDeltaSpec 1 0 false true 2 1 10 4 :=
  ⟨by norm_num,
   screenToImageDelta_matches_spec 1 0 false true 2 1 10 4 (by norm_num)⟩

/-- C6: on every aspect-locked corner-handle drag step from an
invariant-satisfying start rectangle, the resolver is all-or-nothing:
it returns the width-driven derived rectangle (height
`newWidth / (startWidth/startHeight)`, origin from the anchor corner)
exactly when that rectangle satisfies the bounds-and-minimum-size
invariant, and otherwise leaves the rectangle unchanged; the derived
rectangle's `width/height` equals the drag-start ratio exactly. -/
theorem lockedCornerDrag_allOrNothing (img : ImageDims) (handle : Handle)
    (dx dy : ℚ) (r : CropRect)
    (hcorner : handle = Handle.nw ∨ handle = Handle.ne ∨
      handle = Handle.se ∨ handle = Handle.sw)
    (hr : cropInvariant img r) :
    resolveDrag img true handle dx dy r =
      (if cropInvariant img (lockedDerivedRect img handle dx r)
        then lockedDerivedRect img handle dx r else r) ∧
    (lockedDerivedRect img handle dx r).width /
        (lockedDerivedRect img handle dx r).height = r.width / r.height := by
  have hm : (0:ℚ) < minCropSize := by norm_num [minCropSize]
  obtain ⟨rx, ry, rw, rh⟩ := r
  obtain ⟨hx, hy, hxw, hyh, hw, hh⟩ := hr
  rcases hcorner with hc | hc | hc | hc <;> subst hc
  · -- nw
    constructor
    · by_cases hI : cropInvariant img (lockedDerivedRect img Handle.nw dx ⟨rx, ry, rw, rh⟩)
      · rw [if_pos hI]
        simp only [lockedDerivedRect, lockedNewWidth, cropInvariant] at hI
        obtain ⟨h1, h2, h3, h4, h5, h6⟩ := hI
        simp only [resolveDrag, lockedDerivedRect, lockedNewWidth,
          eq_self_iff_true, if_true]
        rw [if_pos ⟨h1, h2, h6⟩]
      · rw [if_neg hI]
        simp only [resolveDrag, eq_self_iff_true, if_true]
        split_ifs with hg
        · exfalso
          apply hI
          obtain ⟨hg1, hg2, hg3⟩ := hg
          simp only [lockedDerivedRect, lockedNewWidth, cropInvariant]
          exact ⟨hg1, hg2, by linarith, by linarith, le_max_left _ _, hg3⟩
        · rfl
    · have hpos : (0:ℚ) <
          max minCropSize (min (rx + rw) (rw - dx)) :=
        lt_of_lt_of_le hm (le_max_left _ _)
      simp only [lockedDerivedRect, lockedNewWidth]
      rw [div_div_eq_mul_div]
      exact mul_div_cancel_left₀ _ (ne_of_gt hpos)
  · -- ne
    constructor
    · by_cases hI : cropInvariant img (lockedDerivedRect img Handle.ne dx ⟨rx, ry, rw, rh⟩)
      · rw [if_pos hI]
        simp only [lockedDerivedRect, lockedNewWidth, cropInvariant] at hI
        obtain ⟨h1, h2, h3, h4, h5, h6⟩ := hI
        simp only [resolveDrag, lockedDerivedRect, lockedNewWidth,
          eq_self_iff_true, if_true]
        rw [if_pos ⟨h2, h6⟩]
      · rw [if_neg hI]
        simp only [resolveDrag, eq_self_iff_true, if_true]
        split_ifs with hg
        · exfalso
          apply hI
          obtain ⟨hg1, hg2⟩ := hg
          simp only [lockedDerivedRect, lockedNewWidth, cropInvariant]
          refine ⟨hx, hg1, ?_, by linarith, le_max_left _ _, hg2⟩
          have := clampUp_le (rw + dx) (a := minCropSize)
            (b := img.width - rx) (by linarith)
          linarith
        · rfl
    · have hpos : (0:ℚ) <
          max minCropSize (min (img.width - rx) (rw + dx)) :=
        lt_of_lt_of_le hm (le_max_left _ _)
      simp only [lockedDerivedRect, lockedNewWidth]
      rw [div_div_eq_mul_div]
      exact mul_div_cancel_left₀ _ (ne_of_gt hpos)
  · -- se
    constructor
    · by_cases hI : cropInvariant img (lockedDerivedRect img Handle.se dx ⟨rx, ry, rw, rh⟩)
      · rw [if_pos hI]
        simp only [lockedDerivedRect, lockedNewWidth, cropInvariant] at hI
        obtain ⟨h1, h2, h3, h4, h5, h6⟩ := hI
        simp only [resolveDrag, lockedDerivedRect, lockedNewWidth,
          eq_self_iff_true, if_true]
        rw [if_pos ⟨h4, h6⟩]
      · rw [if_neg hI]
        simp only [resolveDrag, eq_self_iff_true, if_true]
        split_ifs with hg
        · exfalso
          apply hI
          obtain ⟨hg1, hg2⟩ := hg
          simp only [lockedDerivedRect, lockedNewWidth, cropInvariant]
          refine ⟨hx, hy, ?_, hg1, le_max_left _ _, hg2⟩
          have := clampUp_le (rw + dx) (a := minCropSize)
            (b := img.width - rx) (by linarith)
          linarith
        · rfl
    · have hpos : (0:ℚ) <
          max minCropSize (min (img.width - rx) (rw + dx)) :=
        lt_of_lt_of_le hm (le_max_left _ _)
      simp only [lockedDerivedRect, lockedNewWidth]
      rw [div_div_eq_mul_div]
      exact mul_div_cancel_left₀ _ (ne_of_gt hpos)
  · -- sw
    constructor
    · by_cases hI : cropInvariant img (lockedDerivedRect img Handle.sw dx ⟨rx, ry, rw, rh⟩)
      · rw [if_pos hI]
        simp only [lockedDerivedRect, lockedNewWidth, cropInvariant] at hI
        obtain ⟨h1, h2, h3, h4, h5, h6⟩ := hI
        simp only [resolveDrag, lockedDerivedRect, lockedNewWidth,
          eq_self_iff_true, if_true]
        rw [if_pos ⟨h1, h4, h6⟩]
      · rw [if_neg hI]
        simp only [resolveDrag, eq_self_iff_true, if_true]
        split_ifs with hg
        · exfalso
          apply hI
          obtain ⟨hg1, hg2, hg3⟩ := hg
          simp only [lockedDerivedRect, lockedNewWidth, cropInvariant]
          exact ⟨hg1, hy, by linarith, hg2, le_max_left _ _, hg3⟩
        · rfl
    · have hpos : (0:ℚ) <
          max minCropSize (min (rx + rw) (rw - dx)) :=
        lt_of_lt_of_le hm (le_max_left _ _)
      simp only [lockedDerivedRect, lockedNewWidth]
      rw [div_div_eq_mul_div]
      exact mul_div_cancel_left₀ _ (ne_of_gt hpos)

theorem lockedCornerDrag_allOrNothing_witness :
    cropInvariant ⟨200, 200⟩ ⟨0, 0, 100, 100⟩ ∧
    (resolveDrag ⟨200, 200⟩ true Handle.se 50 0 ⟨0, 0, 100, 100⟩ =
        (if cropInvariant ⟨200, 200⟩
            (lockedDerivedRect ⟨200, 200⟩ Handle.se 50 ⟨0, 0, 100, 100⟩)
          then lockedDerivedRect ⟨200, 200⟩ Handle.se 50 ⟨0, 0, 100, 100⟩
          else ⟨0, 0, 100, 100⟩) ∧
      (lockedDerivedRect ⟨200, 200⟩ Handle.se 50 ⟨0, 0, 100, 100⟩).width /
          (lockedDerivedRect ⟨200, 200⟩ Handle.se 50 ⟨0, 0, 100, 100⟩).height =
        (100 : ℚ) / 100) :=
  ⟨by norm_num [cropInvariant, minCropSize],
   lockedCornerDrag_allOrNothing ⟨200, 200⟩ Handle.se 50 0 ⟨0, 0, 100, 100⟩
     (Or.inr (Or.inr (Or.inl rfl)))
     (by norm_num [cropInvariant, minCropSize])⟩

/-- C8: for every export, the source rectangle chosen by the
composition pipeline is `cropRect` exactly when `isCropping` is true
and a crop rectangle exists, and the full image extent in every other
case — the code's `cropRect && isCropping` test agrees with the spec's
wording for all inputs. -/
theorem processImage_source_window (trig : ℚ → ℚ × ℚ) (img : ImageDims)
    (editState : EditState) (settings : ExportSettings) :
    (processImageGeometry trig img editState settings).src =
      srcRectSpec img editState := by
  obtain ⟨sc, rot, fx, fy, cropping, rect, lockA⟩ := editState
  simp only [processImageGeometry, srcRectSpec]
  cases rect <;> cases cropping <;>
    split_ifs <;> simp_all [Option.isSome, Option.getD]

/-- C2 counterexample: two edit states that differ only in `scale`
(zoom 1 vs zoom 2) produce different exported geometry when no target
dimensions are set — `processImage` multiplies the working-canvas (and
hence exported) dimensions by `editState.scale`, so interactive zoom is
not view-only on this code. -/
theorem processImage_scale_affects_export :
    scaledEditState 2 = { scaledEditState 1 with scale := 2 } ∧
    processImageGeometry (fun _ => (1, 0)) ⟨100, 100⟩ (scaledEditState 1)
        sampleSettingsNoTargets ≠
      processImageGeometry (fun _ => (1, 0)) ⟨100, 100⟩ (scaledEditState 2)
        sampleSettingsNoTargets := by
  refine ⟨rfl, fun hEq => ?_⟩
  have h := congrArg RenderSpec.finalW hEq
  norm_num [processImageGeometry, scaledEditState, sampleSettingsNoTargets,
    qTruthy] at h

/-- C2 (amended): when both `targetWidth` and `targetHeight` are set
(truthy), the exported footprint — source window and final output
dimensions — is independent of `editState.scale`: two edit states that
differ only in `scale` export identically, export-time sizing being
controlled by the targets; without both targets the dimensions scale
with `editState.scale` (see the counterexample). -/
theorem processImage_scale_view_only_with_targets (trig : ℚ → ℚ × ℚ)
    (img : ImageDims) (editState : EditState) (scaleVal : ℚ)
    (settings : ExportSettings)
    (hW : qTruthy settings.targetWidth = true)
    (hH : qTruthy settings.targetHeight = true) :
    exportFootprint (processImageGeometry trig img
        { editState with scale := scaleVal } settings) =
      exportFootprint (processImageGeometry trig img editState settings) := by
  obtain ⟨sc, rot, fx, fy, cropping, rect, lockA⟩ := editState
  rcases hsw : settings.targetWidth with _ | v
  · rw [hsw] at hW
    simp [qTruthy] at hW
  rcases hsh : settings.targetHeight with _ | u
  · rw [hsh] at hH
    simp [qTruthy] at hH
  rw [hsw] at hW
  rw [hsh] at hH
  have hv : ¬ v = 0 := by
    intro h0
    simp [qTruthy, h0] at hW
  have hu : ¬ u = 0 := by
    intro h0
    simp [qTruthy, h0] at hH
  simp [processImageGeometry, exportFootprint, hsw, hsh, qTruthy, qOr,
    hv, hu]

theorem processImage_scale_view_only_with_targets_witness :
    qTruthy sampleSettingsBothTargets.targetWidth = true ∧
    qTruthy sampleSettingsBothTargets.targetHeight = true ∧
    exportFootprint (processImageGeometry (fun _ => (1, 0)) ⟨100, 100⟩
        { scaledEditState 1 with scale := 3 } sampleSettingsBothTargets) =
      exportFootprint (processImageGeometry (fun _ => (1, 0)) ⟨100, 100⟩
        (scaledEditState 1) sampleSettingsBothTargets) :=
  ⟨by norm_num [qTruthy, sampleSettingsBothTargets],
   by norm_num [qTruthy, sampleSettingsBothTargets],
   processImage_scale_view_only_with_targets (fun _ => (1, 0)) ⟨100, 100⟩
     (scaledEditState 1) 3 sampleSettingsBothTargets
     (by norm_num [qTruthy, sampleSettingsBothTargets])
     (by norm_num [qTruthy, sampleSettingsBothTargets])⟩

/-- C9: for positive canvas dimensions and positive tile spacing, the
watermark grid `rows = ceil(height/spacingY)+2`,
`cols = ceil(width/spacingX)+2` covers the canvas with no gaps:
`(rows−2)·spacingY ≥ height` and `(cols−2)·spacingX ≥ width`. -/
theorem watermark_grid_covers (width height spacingX spacingY : ℚ)
    (hw : 0 < width) (hh : 0 < height)
    (hsx : 0 < spacingX) (hsy : 0 < spacingY) :
    height ≤ ((watermarkRows height spacingY - 2 : ℤ) : ℚ) * spacingY ∧
    width ≤ ((watermarkCols width spacingX - 2 : ℤ) : ℚ) * spacingX := by
  constructor
  · calc height = height / spacingY * spacingY :=
          (div_mul_cancel₀ height (ne_of_gt hsy)).symm
      _ ≤ ((⌈height / spacingY⌉ : ℤ) : ℚ) * spacingY :=
          mul_le_mul_of_nonneg_right (Int.le_ceil _) (le_of_lt hsy)
      _ = ((watermarkRows height spacingY - 2 : ℤ) : ℚ) * spacingY := by
          simp only [watermarkRows]
          push_cast
          ring
  · calc width = width / spacingX * spacingX :=
          (div_mul_cancel₀ width (ne_of_gt hsx)).symm
      _ ≤ ((⌈width / spacingX⌉ : ℤ) : ℚ) * spacingX :=
          mul_le_mul_of_nonneg_right (Int.le_ceil _) (le_of_lt hsx)
      _ = ((watermarkCols width spacingX - 2 : ℤ) : ℚ) * spacingX := by
          simp only [watermarkCols]
          push_cast
          ring

theorem watermark_grid_covers_witness :
    (0:ℚ) < 80 ∧ (0:ℚ) < 100 ∧ (0:ℚ) < 50 ∧ (0:ℚ) < 40 ∧
    ((100:ℚ) ≤ ((watermarkRows 100 40 - 2 : ℤ) : ℚ) * 40 ∧
      (80:ℚ) ≤ ((watermarkCols 80 50 - 2 : ℤ) : ℚ) * 50) :=
  ⟨by norm_num, by norm_num, by norm_num, by norm_num,
   watermark_grid_covers 80 100 50 40 (by norm_num) (by norm_num)
     (by norm_num) (by norm_num)⟩

/-- C10: a malformed manual target-size input — `parseFloat` returning
`NaN`, or a parsed number outside `[0.1, maxLimitMB]` — is silently
ignored: the settings (in particular the previously stored
`targetSizeMB`) are returned unchanged and no error is raised. -/
theorem manualSizeInput_ignores_malformed (maxLimitMB : ℚ)
    (settings : ExportSettings) (input : SizeInput)
    (h : input = SizeInput.nan ∨
      ∃ v, input = SizeInput.num v ∧ (v < 1/10 ∨ maxLimitMB < v)) :
    handleManualSizeInput maxLimitMB settings input = settings := by
  rcases h with h | ⟨v, hEq, hv⟩
  · subst h
    rfl
  · subst hEq
    simp only [handleManualSizeInput]
    rw [if_neg]
    rintro ⟨h1, h2⟩
    rcases hv with hv | hv <;> linarith

theorem manualSizeInput_ignores_malformed_witness :
    (SizeInput.nan = SizeInput.nan ∨
      ∃ v, SizeInput.nan = SizeInput.num v ∧ (v < 1/10 ∨ (5:ℚ) < v)) ∧
    handleManualSizeInput 5 sampleSettingsNoTargets SizeInput.nan =
      sampleSettingsNoTargets :=
  ⟨Or.inl rfl,
   manualSizeInput_ignores_malformed 5 sampleSettingsNoTargets SizeInput.nan
     (Or.inl rfl)⟩
